import Mathlib

/-
Verification of the dn-backend upload/lookup service (src/main.rs).

The embedding models the two actix-web handlers:
  upload_report : multipart ingest -> storage proxy call -> report index append
  get_reports   : read-only lookup of the report index

Multipart input is modelled as a list of field-read results; each field
carries a name (from the content disposition), an optional client filename
and a list of chunk-read results.  The remote storage backend is modelled
as an oracle from the submitted (filename, bytes) pair to a response, so a
single consultation of the oracle corresponds to the single HTTP POST the
handler performs.  Machine panics (the unwrap calls on chunk reads) are a
distinct outcome from HTTP responses.
-/

/-- Bytes are modelled as natural numbers (values 0..255 in practice). -/
abbrev ByteSeq := List Nat

deriving instance DecidableEq for Except

/-- One multipart field as the handler observes it: the name from the
content disposition (None when absent, the code substitutes ""), the
client-declared filename, and the sequence of chunk-read results of the
field's sub-stream (an error models a failed chunk read). -/
structure MPField where
  name : Option String
  filename : Option String
  chunks : List (Except String ByteSeq)
deriving DecidableEq

/-- One step of the outer multipart stream: either a parse error of the
outer boundary (payload.try_next returning Err) or a field. -/
abbrev FieldResult := Except String MPField

/-- The whole multipart body; the end of the list is stream exhaustion. -/
abbrev MultipartPayload := List FieldResult

/-- The shared state: HashMap from wallet to Vec of (CID, filename) pairs,
modelled as an association list with first-match lookup. -/
abbrev ReportsMap := List (String × List (String × String))

/-- HashMap::get, modelled as first-match association-list lookup. -/
def mapFind (m : ReportsMap) (k : String) : Option (List (String × String)) :=
  match m with
  | [] => none
  | (k2, v) :: rest => if k2 = k then some v else mapFind rest k

/-- reports_map.entry(k).or_insert_with(Vec::new).push(x): append x to the
entry for k, creating a singleton entry when k is unseen. -/
def mapRecord (m : ReportsMap) (k : String) (x : String × String) : ReportsMap :=
  match m with
  | [] => [(k, [x])]
  | (k2, v) :: rest => if k2 = k then (k2, v ++ [x]) :: rest else (k2, v) :: mapRecord rest k x

/-- The replacement character U+FFFD used by lossy UTF-8 decoding. -/
def replChar : Char := Char.ofNat 0xFFFD

/-- One step of lossy UTF-8 decoding (substitution of maximal subparts):
given the lead byte and the remaining bytes, return the decoded character
(U+FFFD on an invalid or truncated sequence) and how many continuation
bytes were consumed; an offending byte is not consumed and is re-examined
as a lead byte. -/
def utf8Step (b : Nat) (rest : ByteSeq) : Char × Nat :=
  if b < 0x80 then (Char.ofNat b, 0)
  else if 0xC2 ≤ b ∧ b ≤ 0xDF then
    match rest with
    | [] => (replChar, 0)
    | b1 :: _ =>
      if 0x80 ≤ b1 ∧ b1 ≤ 0xBF then (Char.ofNat ((b - 0xC0) * 0x40 + (b1 - 0x80)), 1)
      else (replChar, 0)
  else if 0xE0 ≤ b ∧ b ≤ 0xEF then
    match rest with
    | [] => (replChar, 0)
    | b1 :: rest1 =>
      if (b = 0xE0 → 0xA0 ≤ b1) ∧ (b = 0xED → b1 ≤ 0x9F) ∧ 0x80 ≤ b1 ∧ b1 ≤ 0xBF then
        match rest1 with
        | [] => (replChar, 1)
        | b2 :: _ =>
          if 0x80 ≤ b2 ∧ b2 ≤ 0xBF then
            (Char.ofNat ((b - 0xE0) * 0x1000 + (b1 - 0x80) * 0x40 + (b2 - 0x80)), 2)
          else (replChar, 1)
      else (replChar, 0)
  else if 0xF0 ≤ b ∧ b ≤ 0xF4 then
    match rest with
    | [] => (replChar, 0)
    | b1 :: rest1 =>
      if (b = 0xF0 → 0x90 ≤ b1) ∧ (b = 0xF4 → b1 ≤ 0x8F) ∧ 0x80 ≤ b1 ∧ b1 ≤ 0xBF then
        match rest1 with
        | [] => (replChar, 1)
        | b2 :: rest2 =>
          if 0x80 ≤ b2 ∧ b2 ≤ 0xBF then
            match rest2 with
            | [] => (replChar, 2)
            | b3 :: _ =>
              if 0x80 ≤ b3 ∧ b3 ≤ 0xBF then
                (Char.ofNat ((b - 0xF0) * 0x40000 + (b1 - 0x80) * 0x1000 +
                    (b2 - 0x80) * 0x40 + (b3 - 0x80)), 3)
              else (replChar, 2)
          else (replChar, 1)
      else (replChar, 0)
  else (replChar, 0)

/-- Lossy UTF-8 decoding of a whole byte sequence; the fuel bounds the
number of steps and is sufficient whenever it is at least the length of
the input, since every step consumes at least one byte. -/
def utf8DecodeGo (fuel : Nat) (l : ByteSeq) : List Char :=
  match fuel, l with
  | 0, _ => []
  | _ + 1, [] => []
  | fuel + 1, b :: rest =>
    (utf8Step b rest).1 :: utf8DecodeGo fuel (rest.drop (utf8Step b rest).2)

/-- String::from_utf8_lossy(bytes).to_string(). -/
def utf8Lossy (l : ByteSeq) : String := String.mk (utf8DecodeGo l.length l)

/-- The fragment of serde_json::Value the handler touches. -/
inductive Json where
  | null
  | bool (b : Bool)
  | num (n : Int)
  | str (s : String)
  | arr (xs : List Json)
  | obj (fields : List (String × Json))

/-- Lookup of a key in a JSON object's field list (keys are unique in a
parsed serde_json map; first match). -/
def jsonFind : List (String × Json) → String → Json
  | [], _ => Json.null
  | (k2, v) :: rest, k => if k2 = k then v else jsonFind rest k

/-- serde_json Value indexing v[k]: Null on a non-object or a missing key. -/
def Json.index (j : Json) (k : String) : Json :=
  match j with
  | .obj fields => jsonFind fields k
  | _ => .null

/-- Value::as_str. -/
def Json.asStr : Json → Option String
  | .str s => some s
  | _ => none

/-- The storage backend's reply to a single POST of (filename, bytes):
either a network-level send error, or an HTTP response with status code,
body text (None models a failed text read, replaced by "N/A" for logging)
and a JSON parse of the body (None models a parse failure, which the code
replaces by Value::Null). -/
inductive StorageResult where
  | sendErr (e : String)
  | resp (status : Nat) (text : Option String) (json : Option Json)

/-- The storage backend as an oracle from submitted (filename, bytes) to
its reply; the handler consults it exactly once per upload. -/
abbrev StorageOracle := String → ByteSeq → StorageResult

/-- The response body of the upload endpoint. -/
structure UploadResponse where
  success : Bool
  message : String
  cid : Option String
  file_name : Option String
deriving DecidableEq

/-- One entry of the lookup response. -/
structure ReportEntry where
  cid : String
  file_name : String
deriving DecidableEq

/-- The response body of the lookup endpoint. -/
structure GetReportsResponse where
  success : Bool
  reports : List ReportEntry
  message : Option String
deriving DecidableEq

/-- An HTTP response of the upload handler, tagged with the constructor
the code uses (HttpResponse::Ok / BadRequest / InternalServerError). -/
inductive HttpUploadResponse where
  | ok (body : UploadResponse)
  | badRequest (body : UploadResponse)
  | internalServerError (body : UploadResponse)
deriving DecidableEq

/-- The numeric status of an upload response. -/
def HttpUploadResponse.statusCode : HttpUploadResponse → Nat
  | .ok _ => 200
  | .badRequest _ => 400
  | .internalServerError _ => 500

/-- What a single call of the upload handler does: either the async task
panics (an unwrap on a failed chunk read) or an HTTP response is sent. -/
inductive UploadOutcome where
  | panicked
  | resp (r : HttpUploadResponse)
deriving DecidableEq

/-- True exactly when the outcome is a BadRequest response. -/
def UploadOutcome.respondsBadRequest : UploadOutcome → Bool
  | .resp (.badRequest _) => true
  | _ => false

/-- True exactly when the outcome is an InternalServerError response. -/
def UploadOutcome.isServerError : UploadOutcome → Bool
  | .resp (.internalServerError _) => true
  | _ => false

/-- The complete observable result of one upload request: the outcome,
the report index afterwards, and how many times the storage backend was
consulted. -/
structure UploadResult where
  outcome : UploadOutcome
  state : ReportsMap
  storageCalls : Nat
deriving DecidableEq

/-- The three mutable locals of upload_report, accumulated while the
multipart stream drains (fields may arrive in any order). -/
structure IngestAcc where
  target_wallet_address : Option String
  file_data : Option ByteSeq
  file_name : Option String
deriving DecidableEq

/-- The initial accumulator: all three locals start as None. -/
def acc0 : IngestAcc := ⟨none, none, none⟩

/-- The inner loop of the file branch: read every chunk of the file
sub-stream into one buffer; None models the panic of unwrap on a failed
chunk read. -/
def readFileBytes (acc : ByteSeq) : List (Except String ByteSeq) → Option ByteSeq
  | [] => some acc
  | .error _ :: _ => none
  | .ok chunk :: rest => readFileBytes (acc ++ chunk) rest

/-- Processing of one multipart field, following the match on the field
name: the identifier branch reads a single chunk (an absent chunk leaves
the local unchanged, a failed read panics), the file branch captures the
client filename and buffers all chunks, anything else is skipped.
None models a panic. -/
def processField (acc : IngestAcc) (f : MPField) : Option IngestAcc :=
  let field_name := f.name.getD ""
  if field_name = "targetWalletAddress" then
    match f.chunks with
    | [] => some acc
    | .error _ :: _ => none
    | .ok bytes :: _ => some { acc with target_wallet_address := some (utf8Lossy bytes) }
  else if field_name = "file" then
    match readFileBytes [] f.chunks with
    | none => none
    | some bytes => some { acc with file_name := f.filename, file_data := some bytes }
  else some acc

/-- Result of draining the multipart stream: an outer parse error (which
the handler answers with BadRequest), a panic, or the final accumulator. -/
inductive IngestResult where
  | parseErr (e : String)
  | panicked
  | done (acc : IngestAcc)
deriving DecidableEq

/-- The while-let loop over payload.try_next: stop with a BadRequest on an
outer parse error, propagate panics, otherwise fold processField. -/
def ingestLoop (acc : IngestAcc) : MultipartPayload → IngestResult
  | [] => .done acc
  | .error e :: _ => .parseErr e
  | .ok f :: rest =>
    match processField acc f with
    | none => .panicked
    | some acc2 => ingestLoop acc2 rest

/-- The summary of the storage response handling: Some cid exactly when
the reply has a success status and a non-empty string under the key Hash,
in which case cid is that string; None on a send error, a non-success
status, or a missing/empty/unusable content id. -/
def storageCid : StorageResult → Option String
  | .sendErr _ => none
  | .resp status _ json =>
    if ¬ (200 ≤ status ∧ status ≤ 299) then none
    else
      let c := (Json.asStr (Json.index (json.getD Json.null) "Hash")).getD ""
      if c = "" then none else some c

/-- The storage-proxy section of upload_report, given the backend's reply:
surface send errors and non-success statuses as InternalServerError,
substitute Null for an unparsable body, extract the Hash field, fail when
it is empty, and otherwise append to the owner's sequence and answer Ok. -/
def storagePhase (res : StorageResult) (st : ReportsMap)
    (target_wallet file_name_str : String) : UploadResult :=
  match res with
  | .sendErr e =>
    ⟨.resp (.internalServerError
       ⟨false, "Failed to upload to IPFS: " ++ e, none, some file_name_str⟩), st, 1⟩
  | .resp status _text json =>
    if ¬ (200 ≤ status ∧ status ≤ 299) then
      ⟨.resp (.internalServerError
         ⟨false, "IPFS upload failed with status: " ++ toString status, none,
          some file_name_str⟩), st, 1⟩
    else
      let res_json := json.getD Json.null
      let cid := (Json.asStr (Json.index res_json "Hash")).getD ""
      if cid = "" then
        ⟨.resp (.internalServerError
           ⟨false, "Failed to get CID from IPFS response.", none, some file_name_str⟩), st, 1⟩
      else
        ⟨.resp (.ok ⟨true, "File uploaded to IPFS and recorded (simulated)",
           some cid, some file_name_str⟩),
         mapRecord st target_wallet (cid, file_name_str), 1⟩

/-- The section of upload_report after the stream has drained: validate
the three locals in source order (filename, then file data, then wallet),
then call the storage backend once with the buffered bytes and filename. -/
def afterDrain (storage : StorageOracle) (st : ReportsMap) (acc : IngestAcc) : UploadResult :=
  match acc.file_name with
  | none => ⟨.resp (.badRequest ⟨false, "File name is missing.", none, none⟩), st, 0⟩
  | some file_name_str =>
    match acc.file_data with
    | none =>
      ⟨.resp (.badRequest ⟨false, "File data is missing.", none, some file_name_str⟩), st, 0⟩
    | some file_data_vec =>
      match acc.target_wallet_address with
      | none =>
        ⟨.resp (.badRequest
           ⟨false, "Target wallet address is required.", none, some file_name_str⟩), st, 0⟩
      | some target_wallet =>
        storagePhase (storage file_name_str file_data_vec) st target_wallet file_name_str

/-- The whole upload handler POST /api/upload-report: drain the multipart
stream, validate, proxy to storage, record on success. -/
def upload_report (storage : StorageOracle) (st : ReportsMap)
    (payload : MultipartPayload) : UploadResult :=
  match ingestLoop acc0 payload with
  | .parseErr e =>
    ⟨.resp (.badRequest ⟨false, "Error parsing field: " ++ e, none, none⟩), st, 0⟩
  | .panicked => ⟨.panicked, st, 0⟩
  | .done acc => afterDrain storage st acc

/-- An HTTP response of the lookup handler; the code answers Ok in both
branches, so the status is 200 by construction. -/
structure GetOutcome where
  status : Nat
  body : GetReportsResponse
deriving DecidableEq

/-- The lookup handler GET /api/get-reports/{walletAddress}: a pure read
of the shared map, answering the recorded sequence in insertion order, or
success with an empty array and an informational message when the owner
was never recorded. -/
def get_reports (st : ReportsMap) (walletAddress : String) : GetOutcome × ReportsMap :=
  match mapFind st walletAddress with
  | some reports_tuples =>
    (⟨200, { success := true,
             reports := reports_tuples.map (fun p => { cid := p.1, file_name := p.2 }),
             message := none }⟩, st)
  | none =>
    (⟨200, { success := true, reports := [],
             message := some "No reports found for this wallet" }⟩, st)

/-- States reachable from the empty initial map through the two handlers. -/
inductive Reachable : ReportsMap → Prop where
  | base : Reachable []
  | upload (storage : StorageOracle) (payload : MultipartPayload) (st : ReportsMap) :
      Reachable st → Reachable (upload_report storage st payload).state
  | lookup (w : String) (st : ReportsMap) :
      Reachable st → Reachable (get_reports st w).2

/-- Recording for owner k appends to k's sequence (creating it if new). -/
lemma mapFind_mapRecord_self (m : ReportsMap) (k : String) (x : String × String) :
    mapFind (mapRecord m k x) k = some ((mapFind m k).getD [] ++ [x]) := by
  induction m with
  | nil => simp [mapFind, mapRecord]
  | cons p rest ih =>
    obtain ⟨k2, v⟩ := p
    by_cases h : k2 = k <;> simp [mapFind, mapRecord, h, ih]

/-- Recording for owner k leaves every other owner's entry alone. -/
lemma mapFind_mapRecord_other (m : ReportsMap) (k k2 : String) (x : String × String)
    (h : k2 ≠ k) : mapFind (mapRecord m k x) k2 = mapFind m k2 := by
  induction m with
  | nil =>
    have hne : ¬ k = k2 := fun hh => h hh.symm
    simp [mapFind, mapRecord, hne]
  | cons p rest ih =>
    obtain ⟨k3, v⟩ := p
    by_cases h3 : k3 = k
    · subst h3
      have hne : ¬ k3 = k2 := fun hh => h hh.symm
      simp [mapFind, mapRecord, hne]
    · simp [mapFind, mapRecord, h3, ih]

/-- A successful lookup is membership of the association list. -/
lemma mapFind_mem (m : ReportsMap) (k : String) (v : List (String × String))
    (h : mapFind m k = some v) : (k, v) ∈ m := by
  induction m with
  | nil => simp [mapFind] at h
  | cons p rest ih =>
    obtain ⟨k2, v2⟩ := p
    by_cases hk : k2 = k
    · subst hk
      simp [mapFind] at h
      simp [h]
    · simp [mapFind, hk] at h
      exact List.mem_cons_of_mem _ (ih h)

/-- The last element of a list with one appended element. -/
lemma lastOfConcat {α : Type} (a : α) : ∀ l : List α, (l ++ [a]).getLast? = some a
  | [] => rfl
  | [_] => rfl
  | b :: c :: t => by
    have h := lastOfConcat a (c :: t)
    rw [List.cons_append, List.cons_append, List.getLast?_cons_cons]
    rw [List.cons_append] at h
    exact h

/-- The lookup handler returns the state it was given. -/
lemma get_reports_snd (st : ReportsMap) (w : String) : (get_reports st w).2 = st := by
  unfold get_reports
  cases mapFind st w <;> simp

/-- When ingest drains to an accumulator, the handler continues with the
post-drain section on it. -/
lemma upload_done (storage : StorageOracle) (st : ReportsMap) (payload : MultipartPayload)
    (acc : IngestAcc) (h : ingestLoop acc0 payload = .done acc) :
    upload_report storage st payload = afterDrain storage st acc := by
  unfold upload_report
  rw [h]

/-- A storage reply carrying no usable content id leaves the state alone,
answers InternalServerError and was obtained by a single, unrepeated call. -/
lemma storagePhase_fail (res : StorageResult) (st : ReportsMap) (w f : String)
    (h : storageCid res = none) :
    (storagePhase res st w f).state = st ∧
      (storagePhase res st w f).outcome.isServerError = true ∧
      (storagePhase res st w f).storageCalls = 1 := by
  cases res with
  | sendErr e => simp [storagePhase, UploadOutcome.isServerError]
  | resp status text json =>
    by_cases hs : 200 ≤ status ∧ status ≤ 299
    · simp only [storageCid, if_neg (not_not_intro hs)] at h
      by_cases hc : (Json.asStr (Json.index (json.getD Json.null) "Hash")).getD "" = ""
      · simp [storagePhase, hs, hc, UploadOutcome.isServerError]
      · simp [hc] at h
    · simp [storagePhase, hs, UploadOutcome.isServerError]

/-- A storage reply carrying content id c makes the handler append (c, f)
to the owner's sequence and answer Ok, again with exactly one call. -/
lemma storagePhase_ok (res : StorageResult) (st : ReportsMap) (w f c : String)
    (h : storageCid res = some c) :
    storagePhase res st w f =
      ⟨.resp (.ok ⟨true, "File uploaded to IPFS and recorded (simulated)", some c, some f⟩),
       mapRecord st w (c, f), 1⟩ := by
  cases res with
  | sendErr e => simp [storageCid] at h
  | resp status text json =>
    by_cases hs : 200 ≤ status ∧ status ≤ 299
    · simp only [storageCid, if_neg (not_not_intro hs)] at h
      by_cases hc : (Json.asStr (Json.index (json.getD Json.null) "Hash")).getD "" = ""
      · simp [hc] at h
      · simp [hc] at h
        subst h
        simp [storagePhase, hs, hc]
    · simp [storageCid, hs] at h

/-- Every run of the upload handler either leaves the index untouched, or
the stream drained to a full (wallet, data, filename) triple, the storage
oracle confirmed the store of exactly those bytes under exactly that
filename with content id c, and the run appended (c, filename) to the
wallet's sequence and answered Ok. -/
lemma upload_state_cases (storage : StorageOracle) (st : ReportsMap)
    (payload : MultipartPayload) :
    (upload_report storage st payload).state = st ∨
      ∃ w f d c, ingestLoop acc0 payload = .done ⟨some w, some d, some f⟩ ∧
        storageCid (storage f d) = some c ∧
        upload_report storage st payload =
          ⟨.resp (.ok ⟨true, "File uploaded to IPFS and recorded (simulated)", some c, some f⟩),
           mapRecord st w (c, f), 1⟩ := by
  cases hi : ingestLoop acc0 payload with
  | parseErr e => left; unfold upload_report; rw [hi]
  | panicked => left; unfold upload_report; rw [hi]
  | done acc =>
    rw [upload_done storage st payload acc hi]
    obtain ⟨tw, fd, fn⟩ := acc
    cases fn with
    | none => left; rfl
    | some f =>
      cases fd with
      | none => left; rfl
      | some d =>
        cases tw with
        | none => left; rfl
        | some w =>
          cases hc : storageCid (storage f d) with
          | none =>
            left
            have h := storagePhase_fail (storage f d) st w f hc
            exact h.1
          | some c =>
            right
            exact ⟨w, f, d, c, rfl, hc,
              storagePhase_ok (storage f d) st w f c hc⟩

/-- Invariant of the report index: no owner is mapped to an empty
sequence (entries are only ever created together with their first push). -/
def entriesNonempty (m : ReportsMap) : Prop := ∀ p ∈ m, p.2 ≠ []

/-- Appending a record preserves the no-empty-entry invariant. -/
lemma mapRecord_nonempty (m : ReportsMap) (k : String) (x : String × String)
    (h : entriesNonempty m) : entriesNonempty (mapRecord m k x) := by
  induction m with
  | nil =>
    intro p hp
    simp [mapRecord] at hp
    simp [hp]
  | cons q rest ih =>
    obtain ⟨k2, v⟩ := q
    have hrest : entriesNonempty rest := fun p hp => h p (List.mem_cons_of_mem _ hp)
    intro p hp
    by_cases hk : k2 = k
    · simp [mapRecord, hk] at hp
      rcases hp with hp | hp
      · simp [hp]
      · exact hrest p hp
    · simp [mapRecord, hk] at hp
      rcases hp with hp | hp
      · subst hp
        exact h (k2, v) (List.mem_cons_self _ _)
      · exact ih hrest p hp

/-- Every reachable state satisfies the no-empty-entry invariant. -/
lemma reachable_nonempty (st : ReportsMap) (h : Reachable st) : entriesNonempty st := by
  induction h with
  | base => intro p hp; simp at hp
  | upload storage payload st2 _ ih =>
    rcases upload_state_cases storage st2 payload with hc | ⟨w, f, d, c, _, _, heq⟩
    · rw [hc]; exact ih
    · rw [heq]; exact mapRecord_nonempty st2 w (c, f) ih
  | lookup w st2 _ ih => rw [get_reports_snd]; exact ih

/-- One step of the generic last-write-wins fold: g extracts from a field
step the value it would overwrite the tracked local with (None when the
step leaves the local unchanged). -/
def overrideStep {α : Type} (g : FieldResult → Option α) (cur : Option α)
    (fr : FieldResult) : Option α :=
  match g fr with | some v => some v | none => cur

/-- The value of the last overwriting step of the payload, if any. -/
def lastOcc {α : Type} (g : FieldResult → Option α) (payload : MultipartPayload) : Option α :=
  payload.foldl (overrideStep g) none

/-- Folding the overwrite step from any start value yields the last
overwrite when one exists, and the start value otherwise. -/
lemma foldl_override {α : Type} (g : FieldResult → Option α) :
    ∀ (l : MultipartPayload) (c : Option α),
      l.foldl (overrideStep g) c
        = match lastOcc g l with | some v => some v | none => c := by
  intro l
  induction l with
  | nil => intro c; simp [lastOcc]
  | cons fr t ih =>
    intro c
    simp only [lastOcc, List.foldl_cons]
    rw [ih, ih]
    cases hg : g fr <;> cases hlt : lastOcc g t <;>
      simp [lastOcc, overrideStep, hg, hlt]

/-- The overwrite extracted from one step for the wallet local: the first
chunk of an identifier field when the field yields one. -/
def walletStep (fr : FieldResult) : Option ByteSeq :=
  match fr with
  | .error _ => none
  | .ok f =>
    if f.name.getD "" = "targetWalletAddress" then
      match f.chunks with
      | .ok bs :: _ => some bs
      | _ => none
    else none

/-- The first chunk of the last identifier field that yields a chunk. -/
def lastWalletOcc : MultipartPayload → Option ByteSeq := lastOcc walletStep

/-- The overwrite extracted from one step for the file locals: the
client filename and the concatenation of all chunks of a file field. -/
def fileStep (fr : FieldResult) : Option (Option String × ByteSeq) :=
  match fr with
  | .error _ => none
  | .ok f =>
    if f.name.getD "" = "file" then
      match readFileBytes [] f.chunks with
      | some bs => some (f.filename, bs)
      | none => none
    else none

/-- The filename and buffered bytes of the last file field occurrence. -/
def lastFileOcc : MultipartPayload → Option (Option String × ByteSeq) := lastOcc fileStep

/-- Unfolding of lastOcc over a leading field step. -/
lemma lastOcc_cons {α : Type} (g : FieldResult → Option α) (fr : FieldResult)
    (t : MultipartPayload) :
    lastOcc g (fr :: t) = match lastOcc g t with | some v => some v | none => g fr := by
  simp only [lastOcc, List.foldl_cons]
  rw [foldl_override]
  cases hg : g fr <;> cases hlt : lastOcc g t <;>
    simp only [lastOcc] at hlt <;> simp [overrideStep, hg, hlt]

/-- Effect of one field on the wallet local: overwritten with the lossy
decoding of the first chunk of an identifier field, otherwise unchanged. -/
lemma processField_wallet (acc acc2 : IngestAcc) (f : MPField)
    (h : processField acc f = some acc2) :
    acc2.target_wallet_address =
      match walletStep (.ok f) with
      | some bs => some (utf8Lossy bs)
      | none => acc.target_wallet_address := by
  unfold processField at h
  unfold walletStep
  by_cases hn : f.name.getD "" = "targetWalletAddress"
  · simp only [hn, if_true, if_pos] at h ⊢
    cases hc : f.chunks with
    | nil => rw [hc] at h; simp at h; simp [← h]
    | cons ch rest =>
      cases ch with
      | error e => rw [hc] at h; simp at h
      | ok bs => rw [hc] at h; simp at h; simp [← h]
  · by_cases hf : f.name.getD "" = "file"
    · simp only [hn, hf, if_false, if_true] at h ⊢
      cases hr : readFileBytes [] f.chunks with
      | none => rw [hr] at h; simp at h
      | some bs => rw [hr] at h; simp at h; simp [← h]
    · simp only [hn, hf, if_false] at h ⊢
      simp at h
      simp [← h]

/-- Effect of one field on the file locals: overwritten with the client
filename and freshly buffered bytes of a file field, otherwise unchanged. -/
lemma processField_file (acc acc2 : IngestAcc) (f : MPField)
    (h : processField acc f = some acc2) :
    (acc2.file_name, acc2.file_data) =
      match fileStep (.ok f) with
      | some p => (p.1, some p.2)
      | none => (acc.file_name, acc.file_data) := by
  unfold processField at h
  unfold fileStep
  by_cases hn : f.name.getD "" = "targetWalletAddress"
  · have hnf : ¬ f.name.getD "" = "file" := by rw [hn]; decide
    simp only [hn, hnf, if_true, if_false, if_pos] at h ⊢
    cases hc : f.chunks with
    | nil => rw [hc] at h; simp at h; simp [← h]
    | cons ch rest =>
      cases ch with
      | error e => rw [hc] at h; simp at h
      | ok bs => rw [hc] at h; simp at h; simp [← h]
  · by_cases hf : f.name.getD "" = "file"
    · simp only [hn, hf, if_false, if_true] at h ⊢
      cases hr : readFileBytes [] f.chunks with
      | none => rw [hr] at h; simp at h
      | some bs => rw [hr] at h; simp at h; simp [← h]
    · simp only [hn, hf, if_false] at h ⊢
      simp at h
      simp [← h]

/-- After a clean drain, the wallet local holds the lossy decoding of the
first chunk of the last identifier field that yielded a chunk, and keeps
its starting value when no identifier field yielded one. -/
lemma ingest_wallet (payload : MultipartPayload) :
    ∀ acc acc' : IngestAcc, ingestLoop acc payload = .done acc' →
      acc'.target_wallet_address =
        match lastWalletOcc payload with
        | some bs => some (utf8Lossy bs)
        | none => acc.target_wallet_address := by
  induction payload with
  | nil =>
    intro acc acc' h
    simp [ingestLoop] at h
    simp [lastWalletOcc, lastOcc, ← h]
  | cons fr t ih =>
    intro acc acc' h
    cases fr with
    | error e => simp [ingestLoop] at h
    | ok f =>
      simp only [ingestLoop] at h
      cases hp : processField acc f with
      | none => rw [hp] at h; simp at h
      | some acc2 =>
        rw [hp] at h
        simp only at h
        have ihh := ih acc2 acc' h
        have hw := processField_wallet acc acc2 f hp
        have hcons := lastOcc_cons walletStep (.ok f) t
        show acc'.target_wallet_address = match lastOcc walletStep (.ok f :: t) with
          | some bs => some (utf8Lossy bs)
          | none => acc.target_wallet_address
        rw [hcons]
        cases hlt : lastOcc walletStep t with
        | some bs =>
          rw [lastWalletOcc] at ihh
          rw [hlt] at ihh
          simp [ihh]
        | none =>
          rw [lastWalletOcc] at ihh
          rw [hlt] at ihh
          simp only [ihh, hw]

/-- After a clean drain, the file locals hold the client filename and the
buffered bytes of the last file field, and keep their starting values
when no file field occurred. -/
lemma ingest_file (payload : MultipartPayload) :
    ∀ acc acc' : IngestAcc, ingestLoop acc payload = .done acc' →
      (acc'.file_name, acc'.file_data) =
        match lastFileOcc payload with
        | some p => (p.1, some p.2)
        | none => (acc.file_name, acc.file_data) := by
  induction payload with
  | nil =>
    intro acc acc' h
    simp [ingestLoop] at h
    simp [lastFileOcc, lastOcc, ← h]
  | cons fr t ih =>
    intro acc acc' h
    cases fr with
    | error e => simp [ingestLoop] at h
    | ok f =>
      simp only [ingestLoop] at h
      cases hp : processField acc f with
      | none => rw [hp] at h; simp at h
      | some acc2 =>
        rw [hp] at h
        simp only at h
        have ihh := ih acc2 acc' h
        have hw := processField_file acc acc2 f hp
        have hcons := lastOcc_cons fileStep (.ok f) t
        show (acc'.file_name, acc'.file_data) = match lastOcc fileStep (.ok f :: t) with
          | some p => (p.1, some p.2)
          | none => (acc.file_name, acc.file_data)
        rw [hcons]
        cases hlt : lastOcc fileStep t with
        | some p =>
          rw [lastFileOcc] at ihh
          rw [hlt] at ihh
          simp [ihh]
        | none =>
          rw [lastFileOcc] at ihh
          rw [hlt] at ihh
          simp only [ihh, hw]

/-- A storage backend that is unreachable. -/
def storDown : StorageOracle := fun _ _ => .sendErr "connection refused"

/-- A storage backend that stores successfully and answers Hash Qm123. -/
def storOk : StorageOracle :=
  fun _ _ => .resp 200 none (some (Json.obj [("Hash", Json.str "Qm123")]))

/-- A storage backend that answers HTTP 500 with body boom. -/
def stor500 : StorageOracle := fun _ _ => .resp 500 (some "boom") none

/-- A storage backend that answers HTTP 200 with an empty JSON object. -/
def storNoHash : StorageOracle := fun _ _ => .resp 200 (some "{}") (some (Json.obj []))

/-- A well-formed request: wallet Wal1 and file a.pdf with bytes 1,2,3. -/
def pwGood : MultipartPayload :=
  [.ok ⟨some "targetWalletAddress", none, [.ok [87, 97, 108, 49]]⟩,
   .ok ⟨some "file", some "a.pdf", [.ok [1, 2, 3]]⟩]

/-- Claim C1: an artifact (contentId, filename) is appended to an owner's
sequence only when the drained stream produced that owner, filename and
byte content and the storage oracle confirmed the store of exactly those
bytes under that filename with content id c; on any upstream failure
(send error, non-success status, or unusable content id) the handler
answers InternalServerError and the report index is unchanged. -/
theorem claim1_artifact_only_after_confirmed_store (storage : StorageOracle)
    (st : ReportsMap) (payload : MultipartPayload) :
    ((upload_report storage st payload).state = st ∨
      ∃ w f d c, ingestLoop acc0 payload = .done ⟨some w, some d, some f⟩ ∧
        storageCid (storage f d) = some c ∧
        upload_report storage st payload =
          ⟨.resp (.ok ⟨true, "File uploaded to IPFS and recorded (simulated)",
             some c, some f⟩), mapRecord st w (c, f), 1⟩) ∧
    (∀ w f d, ingestLoop acc0 payload = .done ⟨some w, some d, some f⟩ →
      storageCid (storage f d) = none →
      (upload_report storage st payload).state = st ∧
        (upload_report storage st payload).outcome.isServerError = true) := by
  constructor
  · exact upload_state_cases storage st payload
  · intro w f d hi hc
    rw [upload_done storage st payload _ hi]
    have h := storagePhase_fail (storage f d) st w f hc
    exact ⟨h.1, h.2.1⟩

/-- Witness for C1 at a concrete input: with an unreachable backend the
index stays empty and the outcome is a server error. -/
theorem claim1_witness :
    (upload_report storDown [] pwGood).state = [] ∧
      (upload_report storDown [] pwGood).outcome.isServerError = true :=
  (claim1_artifact_only_after_confirmed_store storDown [] pwGood).2
    "Wal1" "a.pdf" [1, 2, 3] (by decide) rfl

/-- Claim C2: a successful upload (the backend confirms with content id c)
answers Ok carrying c and the filename, and a subsequent lookup for that
owner ends in exactly (c, filename). -/
theorem claim2_upload_then_lookup_last (storage : StorageOracle) (st : ReportsMap)
    (payload : MultipartPayload) (w f : String) (d : ByteSeq) (c : String)
    (status : Nat) (text : Option String) (j : Json)
    (hi : ingestLoop acc0 payload = .done ⟨some w, some d, some f⟩)
    (hr : storage f d = .resp status text (some j))
    (hs : 200 ≤ status ∧ status ≤ 299)
    (hh : Json.index j "Hash" = Json.str c)
    (hc : c ≠ "") :
    (upload_report storage st payload).outcome =
      .resp (.ok ⟨true, "File uploaded to IPFS and recorded (simulated)",
        some c, some f⟩) ∧
    ((get_reports (upload_report storage st payload).state w).1.body.reports).getLast?
      = some ⟨c, f⟩ := by
  have hcid : storageCid (storage f d) = some c := by
    rw [hr]
    simp [storageCid, hs.1, hs.2, hh, Json.asStr, hc]
  have heq := storagePhase_ok (storage f d) st w f c hcid
  rw [upload_done storage st payload _ hi]
  show (storagePhase (storage f d) st w f).outcome = _ ∧
    ((get_reports (storagePhase (storage f d) st w f).state w).1.body.reports).getLast?
      = some ⟨c, f⟩
  rw [heq]
  refine ⟨rfl, ?_⟩
  show ((get_reports (mapRecord st w (c, f)) w).1.body.reports).getLast? = some ⟨c, f⟩
  simp [get_reports, mapFind_mapRecord_self, lastOfConcat]

/-- Witness for C2 at a concrete input. -/
theorem claim2_witness :
    (upload_report storOk [] pwGood).outcome =
      .resp (.ok ⟨true, "File uploaded to IPFS and recorded (simulated)",
        some "Qm123", some "a.pdf"⟩) ∧
    ((get_reports (upload_report storOk [] pwGood).state "Wal1").1.body.reports).getLast?
      = some ⟨"Qm123", "a.pdf"⟩ :=
  claim2_upload_then_lookup_last storOk [] pwGood "Wal1" "a.pdf" [1, 2, 3] "Qm123"
    200 none (Json.obj [("Hash", Json.str "Qm123")])
    (by decide) rfl (by decide) rfl (by decide)

/-- Claim C3: once the stream has drained (the handler validates only the
final accumulator, as the fourth conjunct states), the three checks run in
source order, filename first, then file bytes, then wallet, each answering
BadRequest (status 400) with its own distinct message; a request missing
both filename and owner hits the first check and gets the filename
diagnostic. -/
theorem claim3_validation_order :
    (∀ (storage : StorageOracle) (st : ReportsMap) (acc : IngestAcc),
      acc.file_name = none →
      afterDrain storage st acc =
        ⟨.resp (.badRequest ⟨false, "File name is missing.", none, none⟩), st, 0⟩) ∧
    (∀ (storage : StorageOracle) (st : ReportsMap) (acc : IngestAcc) (f : String),
      acc.file_name = some f → acc.file_data = none →
      afterDrain storage st acc =
        ⟨.resp (.badRequest ⟨false, "File data is missing.", none, some f⟩), st, 0⟩) ∧
    (∀ (storage : StorageOracle) (st : ReportsMap) (acc : IngestAcc) (f : String)
      (d : ByteSeq),
      acc.file_name = some f → acc.file_data = some d →
      acc.target_wallet_address = none →
      afterDrain storage st acc =
        ⟨.resp (.badRequest
           ⟨false, "Target wallet address is required.", none, some f⟩), st, 0⟩) ∧
    (∀ (storage : StorageOracle) (st : ReportsMap) (payload : MultipartPayload)
      (acc : IngestAcc),
      ingestLoop acc0 payload = .done acc →
      upload_report storage st payload = afterDrain storage st acc) ∧
    (("File name is missing." ≠ "File data is missing." ∧
      "File name is missing." ≠ "Target wallet address is required." ∧
      "File data is missing." ≠ "Target wallet address is required.") ∧
     ∀ b : UploadResponse, (HttpUploadResponse.badRequest b).statusCode = 400) := by
  refine ⟨?_, ?_, ?_, ?_, ⟨by decide, fun _ => rfl⟩⟩
  · intro storage st acc hn
    obtain ⟨tw, fd, fn⟩ := acc
    cases fn with
    | none => rfl
    | some f => simp at hn
  · intro storage st acc f hn hd
    obtain ⟨tw, fd, fn⟩ := acc
    simp at hn hd
    subst hn; subst hd
    rfl
  · intro storage st acc f d hn hd hw
    obtain ⟨tw, fd, fn⟩ := acc
    simp at hn hd hw
    subst hn; subst hd; subst hw
    rfl
  · exact fun storage st payload acc h => upload_done storage st payload acc h

/-- Witness for C3 at concrete accumulators, one per check, plus the link
between the handler and the post-drain section. -/
theorem claim3_witness :
    afterDrain storDown [] ⟨some "w", some [1], none⟩ =
      ⟨.resp (.badRequest ⟨false, "File name is missing.", none, none⟩), [], 0⟩ ∧
    afterDrain storDown [] ⟨some "w", none, some "a.pdf"⟩ =
      ⟨.resp (.badRequest ⟨false, "File data is missing.", none, some "a.pdf"⟩), [], 0⟩ ∧
    afterDrain storDown [] ⟨none, some [1], some "a.pdf"⟩ =
      ⟨.resp (.badRequest
         ⟨false, "Target wallet address is required.", none, some "a.pdf"⟩), [], 0⟩ ∧
    upload_report storDown [] [] = afterDrain storDown [] acc0 :=
  ⟨claim3_validation_order.1 storDown [] _ rfl,
   claim3_validation_order.2.1 storDown [] _ "a.pdf" rfl rfl,
   claim3_validation_order.2.2.1 storDown [] _ "a.pdf" [1] rfl rfl rfl,
   claim3_validation_order.2.2.2.1 storDown [] [] acc0 rfl⟩

/-- Claim C4 (amended): on a non-success upstream status the upload fails
with InternalServerError (status 500); the response message surfaces the
upstream status (the upstream body text is only logged server-side, it is
not part of the message), and the backend was consulted exactly once (no
retry). -/
theorem claim4_reject_surfaces_status (storage : StorageOracle) (st : ReportsMap)
    (payload : MultipartPayload) (w f : String) (d : ByteSeq)
    (status : Nat) (text : Option String) (json : Option Json)
    (hi : ingestLoop acc0 payload = .done ⟨some w, some d, some f⟩)
    (hr : storage f d = .resp status text json)
    (hf : ¬ (200 ≤ status ∧ status ≤ 299)) :
    upload_report storage st payload =
      ⟨.resp (.internalServerError
         ⟨false, "IPFS upload failed with status: " ++ toString status, none, some f⟩),
       st, 1⟩ := by
  rw [upload_done storage st payload _ hi]
  show storagePhase (storage f d) st w f = _
  rw [hr]
  simp [storagePhase, hf]

/-- Witness for C4 at a concrete input: upstream 500 with body boom. -/
theorem claim4_witness :
    upload_report stor500 [] pwGood =
      ⟨.resp (.internalServerError
         ⟨false, "IPFS upload failed with status: 500", none, some "a.pdf"⟩), [], 1⟩ := by
  have h := claim4_reject_surfaces_status stor500 [] pwGood "Wal1" "a.pdf" [1, 2, 3]
    500 (some "boom") none (by decide) rfl (by decide)
  rw [h]
  decide

/-- Counterexample to C4 as stated: for an upstream 500 whose body is
boom, the error message of the response names the status but the body
text does not occur in it as a substring. -/
theorem claim4_body_not_in_message :
    (upload_report stor500 [] pwGood).outcome =
      .resp (.internalServerError
        ⟨false, "IPFS upload failed with status: 500", none, some "a.pdf"⟩) ∧
    ¬ List.IsInfix "boom".toList ("IPFS upload failed with status: 500").toList := by
  constructor
  · decide
  · decide

/-- Claim C5 (amended): an error reading an identifier or file sub-stream
is fatal to the request, but through a panic of the handler task (the
unwrap calls), which produces no HTTP response at all and leaves the index
unchanged without consulting the backend; only a malformed outer boundary
is answered with a BadRequest echoing the parser diagnostic. -/
theorem claim5_field_read_error_fatal (storage : StorageOracle) (st : ReportsMap)
    (payload : MultipartPayload) :
    (ingestLoop acc0 payload = .panicked →
      upload_report storage st payload = ⟨.panicked, st, 0⟩) ∧
    (∀ e, ingestLoop acc0 payload = .parseErr e →
      upload_report storage st payload =
        ⟨.resp (.badRequest ⟨false, "Error parsing field: " ++ e, none, none⟩), st, 0⟩) := by
  constructor
  · intro h; unfold upload_report; rw [h]
  · intro e h; unfold upload_report; rw [h]

/-- A request whose identifier sub-stream fails mid-read. -/
def pReadErr : MultipartPayload :=
  [.ok ⟨some "targetWalletAddress", none, [.error "read failed"]⟩]

/-- Witness for C5 at a concrete input: a failed identifier chunk read
panics with the index untouched. -/
theorem claim5_witness :
    upload_report storDown [] pReadErr = ⟨.panicked, [], 0⟩ :=
  (claim5_field_read_error_fatal storDown [] pReadErr).1 (by decide)

/-- Counterexample to C5 as stated: on a field-read error the outcome is
a panic, not a BadRequest rejection response. -/
theorem claim5_no_badrequest :
    (upload_report storDown [] pReadErr).outcome = .panicked ∧
    (upload_report storDown [] pReadErr).outcome.respondsBadRequest = false := by
  decide

/-- Claim C6: when the backend answers a success status, an unparsable
body, an absent Hash field and an empty Hash value all collapse to the
same no-content-id failure (the parse failure is replaced by Null first):
InternalServerError with the one fixed message, index unchanged. -/
theorem claim6_missing_cid_uniform (storage : StorageOracle) (st : ReportsMap)
    (payload : MultipartPayload) (w f : String) (d : ByteSeq)
    (status : Nat) (text : Option String) (json : Option Json)
    (hi : ingestLoop acc0 payload = .done ⟨some w, some d, some f⟩)
    (hr : storage f d = .resp status text json)
    (hs : 200 ≤ status ∧ status ≤ 299)
    (hcase : json = none ∨ (∃ j, json = some j ∧ Json.index j "Hash" = Json.null) ∨
      (∃ j, json = some j ∧ Json.index j "Hash" = Json.str "")) :
    upload_report storage st payload =
      ⟨.resp (.internalServerError
         ⟨false, "Failed to get CID from IPFS response.", none, some f⟩), st, 1⟩ := by
  rw [upload_done storage st payload _ hi]
  show storagePhase (storage f d) st w f = _
  rw [hr]
  have hcid : (Json.asStr (Json.index (json.getD Json.null) "Hash")).getD "" = "" := by
    rcases hcase with h | ⟨j, hj, hh⟩ | ⟨j, hj, hh⟩
    · subst h; rfl
    · subst hj; simp [hh, Json.asStr]
    · subst hj; simp [hh, Json.asStr]
  simp [storagePhase, hs.1, hs.2, hcid]

/-- Witness for C6 at a concrete input: success status, empty JSON object. -/
theorem claim6_witness :
    upload_report storNoHash [] pwGood =
      ⟨.resp (.internalServerError
         ⟨false, "Failed to get CID from IPFS response.", none, some "a.pdf"⟩), [], 1⟩ :=
  claim6_missing_cid_uniform storNoHash [] pwGood "Wal1" "a.pdf" [1, 2, 3]
    200 (some "{}") (some (Json.obj [])) (by decide) rfl (by decide)
    (Or.inr (Or.inl ⟨Json.obj [], rfl, rfl⟩))

/-- Claim C7: in any reachable state, looking up an owner with zero
recorded artifacts answers status 200, success true, an empty array and
the non-null informational message; absence is never an error. -/
theorem claim7_lookup_empty_owner (st : ReportsMap) (w : String)
    (hreach : Reachable st) (hempty : (mapFind st w).getD [] = []) :
    get_reports st w =
      (⟨200, ⟨true, [], some "No reports found for this wallet"⟩⟩, st) := by
  have hnone : mapFind st w = none := by
    cases h : mapFind st w with
    | none => rfl
    | some l =>
      have hl : l = [] := by rw [h] at hempty; simpa using hempty
      have hmem := mapFind_mem st w l h
      have hne := reachable_nonempty st hreach (w, l) hmem
      exact absurd hl hne
  unfold get_reports
  rw [hnone]

/-- Witness for C7 at a concrete input: the initial state. -/
theorem claim7_witness :
    get_reports [] "Wallet1" =
      (⟨200, ⟨true, [], some "No reports found for this wallet"⟩⟩, []) :=
  claim7_lookup_empty_owner [] "Wallet1" Reachable.base rfl

/-- Claim C8 (amended): the stored owner string is the lossy UTF-8
decoding of the FIRST CHUNK of the identifier field (remaining chunks are
ignored; arbitrary, even invalid, byte sequences are decoded with
replacement and never fail the request), and when the identifier field
occurs more than once the last occurrence that yields at least one chunk
wins; occurrences yielding no chunk leave the owner unset. -/
theorem claim8_owner_first_chunk (payload : MultipartPayload) (acc2 : IngestAcc)
    (h : ingestLoop acc0 payload = .done acc2) :
    acc2.target_wallet_address =
      match lastWalletOcc payload with
      | some bs => some (utf8Lossy bs)
      | none => none := by
  have hw := ingest_wallet payload acc0 acc2 h
  cases hlt : lastWalletOcc payload with
  | none => rw [hlt] at hw; simpa [acc0] using hw
  | some bs => rw [hlt] at hw; simpa using hw

/-- Two identifier occurrences; the last one spans two chunks. -/
def pTwoWallets : MultipartPayload :=
  [.ok ⟨some "targetWalletAddress", none, [.ok [120]]⟩,
   .ok ⟨some "targetWalletAddress", none, [.ok [97, 98], .ok [99]]⟩]

/-- Witness for C8 at a concrete input: the wallet local ends as the
decoding of the first chunk of the second occurrence. -/
theorem claim8_witness :
    (IngestAcc.mk (some "ab") none none).target_wallet_address =
      match lastWalletOcc pTwoWallets with
      | some bs => some (utf8Lossy bs)
      | none => none :=
  claim8_owner_first_chunk pTwoWallets ⟨some "ab", none, none⟩ (by decide)

/-- An identifier field whose value arrives in two chunks ab and cd. -/
def pChunkedWallet : MultipartPayload :=
  [.ok ⟨some "targetWalletAddress", none, [.ok [97, 98], .ok [99, 100]]⟩,
   .ok ⟨some "file", some "a.pdf", [.ok [1]]⟩]

/-- Counterexample to C8 as stated: the identifier field's full byte
value decodes to abcd, yet the artifact is recorded under owner ab, the
decoding of the first chunk alone. -/
theorem claim8_not_full_value :
    (upload_report storOk [] pChunkedWallet).state = [("ab", [("Qm123", "a.pdf")])] ∧
    utf8Lossy [97, 98, 99, 100] = "abcd" ∧ ("ab" : String) ≠ "abcd" := by
  decide

/-- Claim C9: the lookup handler never modifies the report index: the
state after any lookup is the state before it, so every owner's sequence
(the queried owner's included) is unchanged and no entry is created. -/
theorem claim9_lookup_pure (st : ReportsMap) (w w2 : String) :
    (get_reports st w).2 = st ∧ mapFind (get_reports st w).2 w2 = mapFind st w2 := by
  refine ⟨get_reports_snd st w, ?_⟩
  rw [get_reports_snd]

/-- Claim C10: a repeated file field is last-write-wins: the buffered
bytes are those of the last occurrence alone (chunks from earlier
occurrences are dropped, not accumulated) and the captured filename is
the last occurrence's; hence a final file part without a client filename
clears an earlier one and the request is rejected for a missing filename. -/
theorem claim10_file_last_occurrence :
    (∀ (payload : MultipartPayload) (acc acc2 : IngestAcc),
      ingestLoop acc payload = .done acc2 →
      (acc2.file_name, acc2.file_data) =
        match lastFileOcc payload with
        | some p => (p.1, some p.2)
        | none => (acc.file_name, acc.file_data)) ∧
    (∀ (storage : StorageOracle) (st : ReportsMap) (payload : MultipartPayload)
      (acc2 : IngestAcc) (bs : ByteSeq),
      ingestLoop acc0 payload = .done acc2 →
      lastFileOcc payload = some (none, bs) →
      upload_report storage st payload =
        ⟨.resp (.badRequest ⟨false, "File name is missing.", none, none⟩), st, 0⟩) := by
  constructor
  · exact ingest_file
  · intro storage st payload acc2 bs hi hlast
    have hfile := ingest_file payload acc0 acc2 hi
    rw [hlast] at hfile
    have hn : acc2.file_name = none := by
      simpa using congrArg Prod.fst hfile
    rw [upload_done storage st payload acc2 hi]
    unfold afterDrain
    rw [hn]

/-- A request whose file field occurs twice, the second time without a
client filename. -/
def pTwoFiles : MultipartPayload :=
  [.ok ⟨some "targetWalletAddress", none, [.ok [119]]⟩,
   .ok ⟨some "file", some "x.pdf", [.ok [1, 2]]⟩,
   .ok ⟨some "file", none, [.ok [3]]⟩]

/-- Witness for C10 at a concrete input: the second, nameless file part
clears the filename and the request is rejected with the filename
diagnostic. -/
theorem claim10_witness :
    upload_report storOk [] pTwoFiles =
      ⟨.resp (.badRequest ⟨false, "File name is missing.", none, none⟩), [], 0⟩ :=
  claim10_file_last_occurrence.2 storOk [] pTwoFiles ⟨some "w", some [3], none⟩ [3]
    (by decide) (by decide)

